import Mathlib

/-!
Verification model of the markdown image embedder (`markdown-images`).

The repository contains two implementation variants of the same program:
* variant 1: `src/main.go` (five regex scanning passes, offset-adjusted
  splicing over a mutated string, 200px default cap, verbatim SVG handling);
* variant 2: the `package main` source embedded in
  `src/markdown/markdown_images_test.go` after the test code (one markdown
  regex with optional width/height groups, sort + forward-cursor splicing,
  width-only 400px cap, SVG dimension patching).

Both are modelled here.  Strings are modelled as lists of characters
(`Str`); Go byte offsets coincide with character offsets on the ASCII
inputs used throughout.  Go's `regexp` package documents leftmost-first
(Perl-style) match semantics, which the small backtracking engine below
implements directly for the character-class-star fragment that all the
program's patterns live in.  I/O (file reads, HTTP fetches, raster
decode/encode, base64) is modelled at the call boundary of
`imageToBase64` by an oracle function; base64 encoding is injective, so
payloads are carried un-encoded.
-/

namespace MDImages

abbrev Str := List Char

def strL (s : String) : Str := s.data

/-- Go slice `content[a:b]` for `a ≤ b ≤ len` (out of range is clamped here;
the Go original panics, and every theorem below stays in the in-range region
where the two agree). -/
def sliceL (s : Str) (a b : Nat) : Str := (s.drop a).take (b - a)

/-- Regular expressions in the fragment used by the program: all repetition
operators of the Go patterns apply to single-character classes only. -/
inductive RE where
  | eps : RE
  | lit : Char → RE
  | cls : (Char → Bool) → RE
  | seq : RE → RE → RE
  | alt : RE → RE → RE
  | starCls : (Char → Bool) → Bool → RE
  | group : Nat → RE → RE

/-- Capture records: (group index, start, end); the most recent record for a
group (head-most in the list) is the one Go reports. -/
abbrev Caps := List (Nat × Nat × Nat)

def capLookup (cp : Caps) (n : Nat) : Option (Nat × Nat) :=
  match cp with
  | [] => none
  | (m, a, b) :: t => if m = n then some (a, b) else capLookup t n

/-- Length of the maximal run of characters satisfying `p` starting at `i`. -/
def runLen (p : Char → Bool) (s : Str) (i : Nat) : Nat :=
  ((s.drop i).takeWhile p).length

/-- Greedy star backtracking: try consuming `m` characters first, down to 0. -/
def tryGreedy (k : Nat → Caps → Option (Nat × Caps)) (cp : Caps) (base : Nat) :
    Nat → Option (Nat × Caps)
  | 0 => k base cp
  | n + 1 => (k (base + n + 1) cp).orElse (fun _ => tryGreedy k cp base n)

/-- Lazy star backtracking: try consuming 0 characters first, up to `m`. -/
def tryLazy (k : Nat → Caps → Option (Nat × Caps)) (cp : Caps) (base : Nat) :
    Nat → Option (Nat × Caps)
  | 0 => k base cp
  | n + 1 => (k base cp).orElse (fun _ => tryLazy k cp (base + 1) n)

/-- Backtracking matcher in continuation style; implements leftmost-first
(Perl / Go `regexp`) semantics for this fragment. -/
def reMatch : RE → Str → Nat → Caps → (Nat → Caps → Option (Nat × Caps)) →
    Option (Nat × Caps)
  | .eps, _, i, cp, k => k i cp
  | .lit c, s, i, cp, k =>
      match s.drop i with
      | [] => none
      | d :: _ => if d = c then k (i + 1) cp else none
  | .cls p, s, i, cp, k =>
      match s.drop i with
      | [] => none
      | d :: _ => if p d then k (i + 1) cp else none
  | .seq a b, s, i, cp, k => reMatch a s i cp (fun j cp2 => reMatch b s j cp2 k)
  | .alt a b, s, i, cp, k =>
      (reMatch a s i cp k).orElse (fun _ => reMatch b s i cp k)
  | .starCls p g, s, i, cp, k =>
      if g then tryGreedy k cp i (runLen p s i) else tryLazy k cp i (runLen p s i)
  | .group n a, s, i, cp, k =>
      reMatch a s i cp (fun j cp2 => k j ((n, i, j) :: cp2))

/-- One match attempt anchored at position `i`. -/
def matchAt (r : RE) (s : Str) (i : Nat) : Option (Nat × Caps) :=
  reMatch r s i [] (fun j cp => some (j, cp))

structure MatchData where
  st : Nat
  en : Nat
  caps : Caps
deriving DecidableEq, Repr

/-- Leftmost match at or after `i` (fuel-driven scan of start positions). -/
def findFromAux (r : RE) (s : Str) : Nat → Nat → Option MatchData
  | i, fuel =>
    match matchAt r s i with
    | some (j, cp) => some ⟨i, j, cp⟩
    | none =>
      match fuel with
      | 0 => none
      | f + 1 => findFromAux r s (i + 1) f

def findFrom (r : RE) (s : Str) (i : Nat) : Option MatchData :=
  findFromAux r s i (s.length - i)

/-- All successive non-overlapping leftmost-first matches, as Go's
`FindAllStringSubmatchIndex(content, -1)` produces them. -/
def findAllAux (r : RE) (s : Str) : Nat → Nat → List MatchData
  | _, 0 => []
  | i, fuel + 1 =>
    match findFrom r s i with
    | none => []
    | some m => m :: findAllAux r s (if m.st < m.en then m.en else m.en + 1) fuel

def findAll (r : RE) (s : Str) : List MatchData :=
  findAllAux r s 0 (s.length + 1)

def reOfList (l : List RE) : RE := l.foldr RE.seq RE.eps

def lits (cs : Str) : RE := reOfList (cs.map RE.lit)

/-- `p+` (greedy when `g`, lazy otherwise). -/
def plusCls (p : Char → Bool) (g : Bool) : RE := .seq (.cls p) (.starCls p g)

/-- `(r)?`, greedy. -/
def opt (r : RE) : RE := .alt r .eps

/-! ### Character classes and literal fragments of the Go patterns -/

def isDigitG (c : Char) : Bool := c.isDigit

/-- Go regexp `\s` = `[\t\n\f\r ]`. -/
def wsG (c : Char) : Bool :=
  c == ' ' || c == '\t' || c == '\n' || c == '\x0c' || c == '\r'

/-- `unicode.IsSpace` on the ASCII fragment (used by `strings.TrimSpace`). -/
def wsUni (c : Char) : Bool := wsG c || c == '\x0b'

def notRB (c : Char) : Bool := c != ']'

def notEqRP (c : Char) : Bool := c != '=' && c != ')'

def notRP (c : Char) : Bool := c != ')'

def notGT (c : Char) : Bool := c != '>'

def isQ (c : Char) : Bool := c == '\x22' || c == '\x27'

def notQ (c : Char) : Bool := !(isQ c)

def sImg : Str := "<img".data

def sSrcEq : Str := "src=".data

def sAltEq : Str := "alt=".data

def sWidthEq : Str := "width=".data

def sHeightEq : Str := "height=".data

def sData : Str := "data:".data

def sSpEq : Str := " =".data

def sBrC : Str := "\x7b:".data

/-! ### The program's regular expressions -/

/-- variant 1: `!\[([^\]]*)\]\(([^=)]+)\)(\s*\{:\s*width=(\d+)\s*height=(\d+)\s*\})` -/
def mdQualRE : RE :=
  reOfList [.lit '!', .lit '[', .group 1 (.starCls notRB true), .lit ']', .lit '(',
    .group 2 (plusCls notEqRP true), .lit ')',
    .group 3 (reOfList [.starCls wsG true, .lit '\x7b', .lit ':', .starCls wsG true,
      lits sWidthEq, .group 4 (plusCls isDigitG true), .starCls wsG true,
      lits sHeightEq, .group 5 (plusCls isDigitG true), .starCls wsG true, .lit '\x7d'])]

/-- variant 1: `!\[([^\]]*)\]\(([^=)]+)\)` -/
def mdBareRE : RE :=
  reOfList [.lit '!', .lit '[', .group 1 (.starCls notRB true), .lit ']', .lit '(',
    .group 2 (plusCls notEqRP true), .lit ')']

/-- variant 1: `!\[([^\]]*)\]\(([^=)]+?)\s*=\s*(\d+)x(\d+)\)` -/
def mdWxHRE : RE :=
  reOfList [.lit '!', .lit '[', .group 1 (.starCls notRB true), .lit ']', .lit '(',
    .group 2 (plusCls notEqRP false), .starCls wsG true, .lit '=', .starCls wsG true,
    .group 3 (plusCls isDigitG true), .lit 'x', .group 4 (plusCls isDigitG true), .lit ')']

/-- variant 1: `<img[^>]+src=["']([^"']+)["'][^>]*alt=["']([^"']*)["'][^>]*width=["'](\d+)["'][^>]*height=["'](\d+)["'][^>]*>` -/
def htmlSizedRE : RE :=
  reOfList [lits sImg, plusCls notGT true, lits sSrcEq, .cls isQ,
    .group 1 (plusCls notQ true), .cls isQ,
    .starCls notGT true, lits sAltEq, .cls isQ, .group 2 (.starCls notQ true), .cls isQ,
    .starCls notGT true, lits sWidthEq, .cls isQ, .group 3 (plusCls isDigitG true), .cls isQ,
    .starCls notGT true, lits sHeightEq, .cls isQ, .group 4 (plusCls isDigitG true), .cls isQ,
    .starCls notGT true, .lit '>']

/-- both variants: `<img[^>]+src=["']([^"']+)["'][^>]*alt=["']([^"']*)["'][^>]*>` -/
def htmlSimpleRE : RE :=
  reOfList [lits sImg, plusCls notGT true, lits sSrcEq, .cls isQ,
    .group 1 (plusCls notQ true), .cls isQ,
    .starCls notGT true, lits sAltEq, .cls isQ, .group 2 (.starCls notQ true), .cls isQ,
    .starCls notGT true, .lit '>']

/-- variant 2: `!\[([^\]]*)\]\(([^)]+?)\)(?:\{:\s*(?:width=(\d+))?\s*(?:height=(\d+))?\s*\})?` -/
def mdV2RE : RE :=
  reOfList [.lit '!', .lit '[', .group 1 (.starCls notRB true), .lit ']', .lit '(',
    .group 2 (plusCls notRP false), .lit ')',
    opt (reOfList [.lit '\x7b', .lit ':', .starCls wsG true,
      opt (.seq (lits sWidthEq) (.group 3 (plusCls isDigitG true))), .starCls wsG true,
      opt (.seq (lits sHeightEq) (.group 4 (plusCls isDigitG true))), .starCls wsG true,
      .lit '\x7d'])]

/-- variant 2: `width=["'](\d+)["']` -/
def attrWidthRE : RE :=
  reOfList [lits sWidthEq, .cls isQ, .group 1 (plusCls isDigitG true), .cls isQ]

/-- variant 2: `height=["'](\d+)["']` -/
def attrHeightRE : RE :=
  reOfList [lits sHeightEq, .cls isQ, .group 1 (plusCls isDigitG true), .cls isQ]

/-- variant 2 SVG patch: `width=["']([^"']+)["']` -/
def svgWidthRE : RE :=
  reOfList [lits sWidthEq, .cls isQ, .group 1 (plusCls notQ true), .cls isQ]

/-- variant 2 SVG patch: `height=["']([^"']+)["']` -/
def svgHeightRE : RE :=
  reOfList [lits sHeightEq, .cls isQ, .group 1 (plusCls notQ true), .cls isQ]

/-! ### The `ImageReference` record and the two scanners -/

structure ImageReference where
  FullMatch : Str
  AltText : Str
  ImagePath : Str
  StartPos : Nat
  EndPos : Nat
  Width : Nat
  Height : Nat
  IsHTML : Bool
deriving DecidableEq, Repr

/-- `strconv.Atoi` on a `\d+` capture (error ignored by the program). -/
def natOfDigits (cs : Str) : Nat := cs.foldl (fun a c => a * 10 + (c.toNat - 48)) 0

/-- Go `strings.Contains(s, pat)` (`containsSub pat s`). -/
def containsSub (pat : Str) : Str → Bool
  | [] => pat.isPrefixOf ([] : Str)
  | c :: t => pat.isPrefixOf (c :: t) || containsSub pat t

def grp (m : MatchData) (n : Nat) : Option (Nat × Nat) := capLookup m.caps n

def grpStr (content : Str) (m : MatchData) (n : Nat) : Str :=
  match grp m n with
  | some (a, b) => sliceL content a b
  | none => []

/-- variant 1, pass 1: size-qualified markdown form (both attributes required). -/
def pass1 (content : Str) : List ImageReference :=
  (findAll mdQualRE content).filterMap fun m =>
    let path := grpStr content m 2
    if sData.isPrefixOf path then none
    else
      let wh : Nat × Nat :=
        match grp m 3 with
        | some _ => (natOfDigits (grpStr content m 4), natOfDigits (grpStr content m 5))
        | none => (0, 0)
      some { FullMatch := sliceL content m.st m.en, AltText := grpStr content m 1,
             ImagePath := path, StartPos := m.st, EndPos := m.en,
             Width := wh.1, Height := wh.2, IsHTML := false }

/-- variant 1, pass 2: bare markdown form, suppressed when the match contains
`" ="` or is followed (after trimming space) by the `{:` qualifier opener. -/
def pass2 (content : Str) : List ImageReference :=
  (findAll mdBareRE content).filterMap fun m =>
    let full := sliceL content m.st m.en
    let path := grpStr content m 2
    if sData.isPrefixOf path then none
    else if containsSub sSpEq full then none
    else if sBrC.isPrefixOf ((content.drop m.en).dropWhile wsUni) then none
    else
      some { FullMatch := full, AltText := grpStr content m 1, ImagePath := path,
             StartPos := m.st, EndPos := m.en, Width := 0, Height := 0, IsHTML := false }

/-- variant 1, pass 3: `![alt](path =WxH)` form. -/
def pass3 (content : Str) : List ImageReference :=
  (findAll mdWxHRE content).filterMap fun m =>
    let path := grpStr content m 2
    if sData.isPrefixOf path then none
    else
      some { FullMatch := sliceL content m.st m.en, AltText := grpStr content m 1,
             ImagePath := path, StartPos := m.st, EndPos := m.en,
             Width := natOfDigits (grpStr content m 3),
             Height := natOfDigits (grpStr content m 4), IsHTML := false }

/-- variant 1, pass 4: HTML `img` with width and height attributes. -/
def pass4 (content : Str) : List ImageReference :=
  (findAll htmlSizedRE content).filterMap fun m =>
    let path := grpStr content m 1
    if sData.isPrefixOf path then none
    else
      some { FullMatch := sliceL content m.st m.en, AltText := grpStr content m 2,
             ImagePath := path, StartPos := m.st, EndPos := m.en,
             Width := natOfDigits (grpStr content m 3),
             Height := natOfDigits (grpStr content m 4), IsHTML := true }

/-- variant 1, pass 5: HTML `img` without size attributes; a match is dropped
when a reference with the identical span is already in the accumulated list. -/
def pass5New (content : Str) : List MatchData → List ImageReference → List ImageReference
  | [], _ => []
  | m :: ms, acc =>
    let path := grpStr content m 1
    if sData.isPrefixOf path then pass5New content ms acc
    else if acc.any (fun r => r.StartPos == m.st && r.EndPos == m.en) then
      pass5New content ms acc
    else
      let ref : ImageReference :=
        { FullMatch := sliceL content m.st m.en, AltText := grpStr content m 2,
          ImagePath := path, StartPos := m.st, EndPos := m.en,
          Width := 0, Height := 0, IsHTML := true }
      ref :: pass5New content ms (acc ++ [ref])

/-- `findImageReferences` of `src/main.go` (variant 1). -/
def findImageReferences1 (content : Str) : List ImageReference :=
  let base := pass1 content ++ pass2 content ++ pass3 content ++ pass4 content
  base ++ pass5New content (findAll htmlSimpleRE content) base

/-- variant 2, markdown pass: optional width/height capture groups, an absent
group parses as 0. -/
def mdPassV2 (content : Str) : List ImageReference :=
  (findAll mdV2RE content).filterMap fun m =>
    let path := grpStr content m 2
    if sData.isPrefixOf path then none
    else
      let w : Nat := match grp m 3 with
        | some _ => natOfDigits (grpStr content m 3)
        | none => 0
      let h : Nat := match grp m 4 with
        | some _ => natOfDigits (grpStr content m 4)
        | none => 0
      some { FullMatch := sliceL content m.st m.en, AltText := grpStr content m 1,
             ImagePath := path, StartPos := m.st, EndPos := m.en,
             Width := w, Height := h, IsHTML := false }

/-- variant 2: first `width=`/`height=` attribute match inside the tag text
(`FindStringSubmatch`), 0 when absent. -/
def firstAttr (re : RE) (full : Str) : Nat :=
  match findFrom re full 0 with
  | some m => natOfDigits (grpStr full m 1)
  | none => 0

/-- variant 2, HTML pass: width/height extracted order-independently from the
whole tag text. -/
def htmlPassV2 (content : Str) : List ImageReference :=
  (findAll htmlSimpleRE content).filterMap fun m =>
    let full := sliceL content m.st m.en
    let path := grpStr content m 1
    if sData.isPrefixOf path then none
    else
      some { FullMatch := full, AltText := grpStr content m 2, ImagePath := path,
             StartPos := m.st, EndPos := m.en,
             Width := firstAttr attrWidthRE full, Height := firstAttr attrHeightRE full,
             IsHTML := true }

/-- `findImageReferences` of the test-file variant (variant 2). -/
def findImageReferences2 (content : Str) : List ImageReference :=
  mdPassV2 content ++ htmlPassV2 content

/-! ### Splicers

`imageToBase64` performs I/O (file read / HTTP fetch, raster decode,
re-encode, base64); it is modelled by an oracle `EncFn` mapping the
reference's locator and requested dimensions to either `some (payload,
mimeType)` or `none` (any of the per-reference failures).  Resolution of a
relative locator against `baseDir` is absorbed into the oracle. -/

abbrev EncFn := Str → Nat → Nat → Option (Str × Str)

def sBangLB : Str := "![".data

def sMid : Str := "](data:".data

def sB64c : Str := ";base64,".data

def sRP : Str := ")".data

/-- `fmt.Sprintf("![%s](data:%s;base64,%s)", alt, mime, data)`. -/
def mkDataRef (alt mime b64 : Str) : Str :=
  sBangLB ++ alt ++ sMid ++ mime ++ sB64c ++ b64 ++ sRP

/-- variant 1 splicing loop (`src/main.go` `processMarkdown`): replaces
spans in a repeatedly **mutated** result string at offset-adjusted
positions.  On failure the reference is skipped (`continue`). -/
def splice1Aux (enc : EncFn) : List ImageReference → Str → Int → Str
  | [], result, _ => result
  | r :: rs, result, offset =>
    match enc r.ImagePath r.Width r.Height with
    | none => splice1Aux enc rs result offset
    | some (b64, mime) =>
      let nr := mkDataRef r.AltText mime b64
      let aS := ((r.StartPos : Int) + offset).toNat
      let aE := ((r.EndPos : Int) + offset).toNat
      splice1Aux enc rs (result.take aS ++ nr ++ result.drop aE)
        (offset + (nr.length : Int) - ((r.EndPos : Int) - (r.StartPos : Int)))

/-- `processMarkdown` of `src/main.go` (variant 1): no sorting, offset
bookkeeping against the mutated string. -/
def processMarkdown1 (enc : EncFn) (content : Str) : Str :=
  splice1Aux enc (findImageReferences1 content) content 0

/-- variant 2 splicing loop: single forward cursor over the immutable input
into a fresh builder; on failure the original `FullMatch` is emitted.
Slicing is clamped here, which is exact only on cursor-well-formed
reference lists (`wfFromB`); `spliceExactGoAux` below is the
panic-faithful version (Go's `content[lastIndex:StartPos]` panics when
`lastIndex > StartPos`, which overlapping scanned spans can produce). -/
def spliceExactAux (enc : EncFn) (content : Str) :
    List ImageReference → Str → Nat → Str
  | [], acc, last => acc ++ content.drop last
  | r :: rs, acc, last =>
    let acc2 := acc ++ sliceL content last r.StartPos
    match enc r.ImagePath r.Width r.Height with
    | none => spliceExactAux enc content rs (acc2 ++ r.FullMatch) r.EndPos
    | some (b64, mime) =>
      spliceExactAux enc content rs (acc2 ++ mkDataRef r.AltText mime b64) r.EndPos

/-- Insertion sort by `StartPos` (Go uses `sort.Slice`, which is unsorted
input order in ties; all inputs considered in the theorems have pairwise
distinct starts, where any comparison sort agrees). -/
def insertByStart (r : ImageReference) : List ImageReference → List ImageReference
  | [] => [r]
  | x :: xs => if r.StartPos < x.StartPos then r :: x :: xs else x :: insertByStart r xs

def sortByStart (l : List ImageReference) : List ImageReference :=
  l.foldr insertByStart []

/-- `processMarkdown` of the test-file variant (variant 2): sort by start,
then a single forward-cursor rewrite (clamped slicing; see
`processMarkdown2Go` for the panic-faithful version). -/
def processMarkdown2 (enc : EncFn) (content : Str) : Str :=
  spliceExactAux enc content (sortByStart (findImageReferences2 content)) [] 0

/-- Go slice `content[a:b]`: defined only for `a ≤ b ≤ len`, otherwise the
program panics (modelled as `none`). -/
def sliceGo (s : Str) (a b : Nat) : Option Str :=
  if a ≤ b ∧ b ≤ s.length then some ((s.drop a).take (b - a)) else none

/-- Go slice `content[a:]`: defined only for `a ≤ len`. -/
def dropGo (s : Str) (a : Nat) : Option Str :=
  if a ≤ s.length then some (s.drop a) else none

/-- Panic-faithful variant 2 splicing loop: `none` models the Go runtime
panic (slice bounds out of range) that aborts `processMarkdown` when a
sorted reference starts before the previous one's end. -/
def spliceExactGoAux (enc : EncFn) (content : Str) :
    List ImageReference → Str → Nat → Option Str
  | [], acc, last =>
    match dropGo content last with
    | none => none
    | some tail => some (acc ++ tail)
  | r :: rs, acc, last =>
    match sliceGo content last r.StartPos with
    | none => none
    | some piece =>
      match enc r.ImagePath r.Width r.Height with
      | none => spliceExactGoAux enc content rs (acc ++ piece ++ r.FullMatch) r.EndPos
      | some (b64, mime) =>
        spliceExactGoAux enc content rs
          (acc ++ piece ++ mkDataRef r.AltText mime b64) r.EndPos

/-- Panic-faithful `processMarkdown` of the test-file variant: `none` is the
aborting run. -/
def processMarkdown2Go (enc : EncFn) (content : Str) : Option Str :=
  spliceExactGoAux enc content (sortByStart (findImageReferences2 content)) [] 0

/-! ### Resize policy

Both variants compute the scale factors in `float64`; the quotients are
modelled with truncating natural division, which agrees with
`int(float64(a)*float64(b)/float64(c))` on all inputs appearing in the
theorems below (the float results there are exact).  The returned Boolean
records whether a resample happens (`false` = the original image is
returned untouched). -/

/-- `resizeImage` of `src/main.go` (variant 1): default cap 200 applied to
the larger dimension when no size was requested; single-dimension requests
are completed by aspect ratio; any explicit request always resamples. -/
def resizeDims1 (sW sH w h : Nat) : Nat × Nat × Bool :=
  if w = 0 ∧ h = 0 then
    if 200 < sW ∨ 200 < sH then
      if sH < sW then (200, 200 * sH / sW, true) else (200 * sW / sH, 200, true)
    else (sW, sH, false)
  else
    if 0 < w ∧ h = 0 then (w, w * sH / sW, true)
    else if 0 < h ∧ w = 0 then (h * sW / sH, h, true)
    else (w, h, true)

/-- variant 2 `resizeImage` after the default-cap block: aspect-ratio fill
of a missing dimension, then skip when the target equals the source. -/
def resizeStep2 (sW sH w h : Nat) : Nat × Nat × Bool :=
  let wh : Nat × Nat :=
    if 0 < w ∧ h = 0 then (w, w * sH / sW)
    else if 0 < h ∧ w = 0 then (h * sW / sH, h)
    else (w, h)
  if wh.1 = sW ∧ wh.2 = sH then (sW, sH, false) else (wh.1, wh.2, true)

/-- `resizeImage` of the test-file variant (variant 2): the default cap
fires only on `srcWidth > 400` (the height is not consulted). -/
def resizeDims2 (sW sH w h : Nat) : Nat × Nat × Bool :=
  if w = 0 ∧ h = 0 then
    if 400 < sW then resizeStep2 sW sH 400 0 else (sW, sH, false)
  else resizeStep2 sW sH w h

/-- The raster branch of variant 1's `imageToBase64` (and of
`downloadAndEncodeExternalImage`) invokes `resizeImage` only under the
guard `targetWidth > 0 && targetHeight > 0`; otherwise the decoded image is
re-encoded at its source dimensions. -/
def rasterResize1 (sW sH w h : Nat) : Nat × Nat × Bool :=
  if 0 < w ∧ 0 < h then resizeDims1 sW sH w h else (sW, sH, false)

/-! ### SVG handling -/

def sSvgMime : Str := "image/svg+xml".data

/-- variant 1's `handleSVGImage`: the file content is encoded verbatim; the
requested dimensions never reach this function. -/
def handleSVGImage1 (content : Str) : Str × Str := (content, sSvgMime)

/-- `ReplaceAllString` with a literal replacement (no `$` references). -/
def replaceAllAux (content repl : Str) : List MatchData → Nat → Str
  | [], last => content.drop last
  | m :: ms, last => sliceL content last m.st ++ repl ++ replaceAllAux content repl ms m.en

def replaceAllRE (r : RE) (content repl : Str) : Str :=
  replaceAllAux content repl (findAll r content) 0

def natDigits : Nat → Nat → Str
  | 0, _ => []
  | fuel + 1, n =>
    if n < 10 then [Char.ofNat (48 + n)]
    else natDigits fuel (n / 10) ++ [Char.ofNat (48 + n % 10)]

/-- Decimal rendering of a natural number. -/
def natToStr (n : Nat) : Str := natDigits (n + 1) n

def quoteAttr (key : Str) (n : Nat) : Str := key ++ '\x22' :: (natToStr n ++ ['\x22'])

/-- `updateSVGDimensions` of the test-file variant: replace every existing
`width="…"` attribute when a width is requested, likewise for height;
nothing is ever inserted. -/
def updateSVGDimensions (content : Str) (w h : Nat) : Str :=
  let c1 := if 0 < w then replaceAllRE svgWidthRE content (quoteAttr sWidthEq w) else content
  if 0 < h then replaceAllRE svgHeightRE c1 (quoteAttr sHeightEq h) else c1

/-- The SVG branch of variant 2's `imageToBase64`: patch dimensions when
either is requested, media type fixed to `image/svg+xml`. -/
def svgBranch2 (content : Str) (w h : Nat) : Str × Str :=
  (if 0 < w ∨ 0 < h then updateSVGDimensions content w h else content, sSvgMime)

/-! ### Span predicates and well-formedness -/

/-- The claim's scanner invariant: pairwise non-overlapping half-open
`[start, end)` spans, listed in ascending order. -/
def orderedSpansB : List ImageReference → Bool
  | [] => true
  | [r] => decide (r.StartPos ≤ r.EndPos)
  | a :: b :: t =>
    decide (a.StartPos ≤ a.EndPos) && decide (a.EndPos ≤ b.StartPos) &&
      orderedSpansB (b :: t)

def sortedByStartB : List ImageReference → Bool
  | [] => true
  | [_] => true
  | a :: b :: t => decide (a.StartPos ≤ b.StartPos) && sortedByStartB (b :: t)

def disjointRefs (a b : ImageReference) : Bool :=
  decide (a.EndPos ≤ b.StartPos) || decide (b.EndPos ≤ a.StartPos)

def pairwiseDisjointB : List ImageReference → Bool
  | [] => true
  | a :: t => t.all (disjointRefs a) && pairwiseDisjointB t

/-- Cursor well-formedness of a reference list over a document: spans are
in bounds, chained left to right starting at position `i`, and each
`FullMatch` is the document text of its span.  This is the region where the
Go slicing in both splicers is defined (no panic) and where the clamping
model above is exact. -/
def wfFromB (content : Str) : Nat → List ImageReference → Bool
  | _, [] => true
  | i, r :: rs =>
    decide (i ≤ r.StartPos) && decide (r.StartPos ≤ r.EndPos) &&
      decide (r.EndPos ≤ content.length) &&
      decide (r.FullMatch = sliceL content r.StartPos r.EndPos) &&
      wfFromB content r.EndPos rs

/-- Go `strings.Count` (number of non-overlapping occurrences), for a
nonempty pattern. -/
def countSubAux (pat : Str) : Nat → Str → Nat
  | 0, _ => 0
  | f + 1, s =>
    if s = [] then 0
    else if pat.isPrefixOf s then 1 + countSubAux pat f (s.drop (max pat.length 1))
    else countSubAux pat f s.tail

def countSub (s pat : Str) : Nat := countSubAux pat s.length s

/-! ### Helper lemmas: slices -/

lemma sliceL_length (content : Str) {i e : Nat} (h1 : i ≤ e) (h2 : e ≤ content.length) :
    (sliceL content i e).length = e - i := by
  simp only [sliceL, List.length_take, List.length_drop]
  omega

lemma drop_eq_slice_drop (content : Str) {i e : Nat} (h : i ≤ e) :
    content.drop i = sliceL content i e ++ content.drop e := by
  have h2 : i + (e - i) = e := by omega
  calc content.drop i
      = (content.drop i).take (e - i) ++ content.drop (i + (e - i)) :=
        (List.drop_take_append_drop content i (e - i)).symm
    _ = sliceL content i e ++ content.drop e := by rw [h2]; rfl

/-! ### The two splicers agree on cursor-well-formed reference lists -/

/-- Offset-adjusted splicing over a mutated string (variant 1) coincides with
the forward-cursor rewrite (variant 2 and spec §4.3) as long as the
reference list is chained left-to-right with in-bounds spans. -/
lemma splice1_eq_exact (enc : EncFn) (content : Str) :
    ∀ refs pre i, wfFromB content i refs = true →
      splice1Aux enc refs (pre ++ content.drop i) ((pre.length : Int) - (i : Int)) =
        spliceExactAux enc content refs pre i := by
  intro refs
  induction refs with
  | nil => intro pre i _; simp [splice1Aux, spliceExactAux]
  | cons r rs ih =>
    intro pre i hwf
    simp only [wfFromB, Bool.and_eq_true, decide_eq_true_eq] at hwf
    obtain ⟨⟨⟨⟨h1, h2⟩, h3⟩, h4⟩, h5⟩ := hwf
    have hsl : r.StartPos ≤ content.length := le_trans h2 h3
    cases henc : enc r.ImagePath r.Width r.Height with
    | none =>
      simp only [splice1Aux, spliceExactAux, henc]
      have key := ih (pre ++ sliceL content i r.StartPos ++
        sliceL content r.StartPos r.EndPos) r.EndPos h5
      have eacc : pre ++ sliceL content i r.StartPos ++
          sliceL content r.StartPos r.EndPos ++ content.drop r.EndPos =
          pre ++ content.drop i := by
        rw [List.append_assoc, List.append_assoc, ← drop_eq_slice_drop content h2,
          ← drop_eq_slice_drop content h1]
      have eoff : ((pre ++ sliceL content i r.StartPos ++
          sliceL content r.StartPos r.EndPos).length : Int) - (r.EndPos : Int) =
          (pre.length : Int) - (i : Int) := by
        simp only [List.length_append, sliceL_length content h1 hsl,
          sliceL_length content h2 h3]
        push_cast
        omega
      rw [eacc, eoff] at key
      rw [h4]
      exact key
    | some pr =>
      obtain ⟨b64, mime⟩ := pr
      simp only [splice1Aux, spliceExactAux, henc]
      have haS : (((r.StartPos : Int)) + ((pre.length : Int) - (i : Int))).toNat =
          pre.length + (r.StartPos - i) := by omega
      have haE : (((r.EndPos : Int)) + ((pre.length : Int) - (i : Int))).toNat =
          pre.length + (r.EndPos - i) := by omega
      have etake : (pre ++ content.drop i).take (pre.length + (r.StartPos - i)) =
          pre ++ sliceL content i r.StartPos := by
        rw [List.take_append]
        rfl
      have edrop : (pre ++ content.drop i).drop (pre.length + (r.EndPos - i)) =
          content.drop r.EndPos := by
        rw [List.drop_append, List.drop_drop]
        congr 1
        omega
      have eoff : (pre.length : Int) - (i : Int) + ((mkDataRef r.AltText mime b64).length : Int)
          - ((r.EndPos : Int) - (r.StartPos : Int)) =
          ((pre ++ sliceL content i r.StartPos ++ mkDataRef r.AltText mime b64).length : Int)
          - (r.EndPos : Int) := by
        simp only [List.length_append, sliceL_length content h1 hsl]
        push_cast
        omega
      have key := ih (pre ++ sliceL content i r.StartPos ++ mkDataRef r.AltText mime b64)
        r.EndPos h5
      rw [haS, haE, etake, edrop, eoff]
      rw [List.append_assoc] at key ⊢
      exact key

/-- Specialisation: `processMarkdown` of variant 1 equals the forward-cursor
splice whenever the scanned list is cursor-well-formed. -/
lemma splice1_base (enc : EncFn) (content : Str) (refs : List ImageReference)
    (h : wfFromB content 0 refs = true) :
    splice1Aux enc refs content 0 = spliceExactAux enc content refs [] 0 := by
  have key := splice1_eq_exact enc content refs [] 0 h
  simpa using key

/-- The cursor splicer only ever appends to its accumulator. -/
lemma spliceExact_acc (enc : EncFn) (content : Str) :
    ∀ refs acc last, ∃ t, spliceExactAux enc content refs acc last = acc ++ t := by
  intro refs
  induction refs with
  | nil => intro acc last; exact ⟨content.drop last, rfl⟩
  | cons r rs ih =>
    intro acc last
    cases henc : enc r.ImagePath r.Width r.Height with
    | none =>
      obtain ⟨t, ht⟩ := ih (acc ++ sliceL content last r.StartPos ++ r.FullMatch) r.EndPos
      refine ⟨sliceL content last r.StartPos ++ (r.FullMatch ++ t), ?_⟩
      simp only [spliceExactAux, henc]
      rw [ht]
      simp [List.append_assoc]
    | some pr =>
      obtain ⟨b64, mime⟩ := pr
      obtain ⟨t, ht⟩ :=
        ih (acc ++ sliceL content last r.StartPos ++ mkDataRef r.AltText mime b64) r.EndPos
      refine ⟨sliceL content last r.StartPos ++ (mkDataRef r.AltText mime b64 ++ t), ?_⟩
      simp only [spliceExactAux, henc]
      rw [ht]
      simp [List.append_assoc]

/-- Failure isolation of the cursor splicer: a reference whose
materialization fails contributes its original matched text verbatim to the
output, and the remaining references are still processed (the splice is
total). -/
lemma failedRef_infix (enc : EncFn) (content : Str) :
    ∀ refs acc last r, r ∈ refs → enc r.ImagePath r.Width r.Height = none →
      ∃ a b, spliceExactAux enc content refs acc last = a ++ (r.FullMatch ++ b) := by
  intro refs
  induction refs with
  | nil => intro acc last r hr _; exact absurd hr (List.not_mem_nil r)
  | cons x rs ih =>
    intro acc last r hr henc0
    rcases List.mem_cons.mp hr with heq | hmem
    · subst heq
      simp only [spliceExactAux, henc0]
      obtain ⟨t, ht⟩ := spliceExact_acc enc content rs
        (acc ++ sliceL content last r.StartPos ++ r.FullMatch) r.EndPos
      refine ⟨acc ++ sliceL content last r.StartPos, t, ?_⟩
      rw [ht]
      simp [List.append_assoc]
    · cases henc : enc x.ImagePath x.Width x.Height with
      | none =>
        obtain ⟨a, b, hab⟩ :=
          ih (acc ++ sliceL content last x.StartPos ++ x.FullMatch) x.EndPos r hmem henc0
        exact ⟨a, b, by simp only [spliceExactAux, henc]; exact hab⟩
      | some pr =>
        obtain ⟨b64, mime⟩ := pr
        obtain ⟨a, b, hab⟩ :=
          ih (acc ++ sliceL content last x.StartPos ++ mkDataRef x.AltText mime b64)
            x.EndPos r hmem henc0
        exact ⟨a, b, by simp only [spliceExactAux, henc]; exact hab⟩

/-- On cursor-well-formed reference lists every Go slice taken by variant
2's splicer is in range, so the panic-faithful splicer succeeds and agrees
with the clamped one. -/
lemma spliceGo_eq_clamped (enc : EncFn) (content : Str) :
    ∀ refs acc last, last ≤ content.length → wfFromB content last refs = true →
      spliceExactGoAux enc content refs acc last =
        some (spliceExactAux enc content refs acc last) := by
  intro refs
  induction refs with
  | nil =>
    intro acc last hlast _
    simp only [spliceExactGoAux, spliceExactAux, dropGo, if_pos hlast]
  | cons r rs ih =>
    intro acc last hlast hwf
    simp only [wfFromB, Bool.and_eq_true, decide_eq_true_eq] at hwf
    obtain ⟨⟨⟨⟨h1, h2⟩, h3⟩, _⟩, h5⟩ := hwf
    have hs : sliceGo content last r.StartPos =
        some (sliceL content last r.StartPos) := by
      unfold sliceGo sliceL
      rw [if_pos ⟨h1, Nat.le_trans h2 h3⟩]
    simp only [spliceExactGoAux, spliceExactAux, hs]
    cases henc : enc r.ImagePath r.Width r.Height with
    | none => exact ih _ r.EndPos h3 h5
    | some pr =>
      obtain ⟨b64, mime⟩ := pr
      exact ih _ r.EndPos h3 h5

/-- Panic-faithful variant 2 `processMarkdown` returns (does not abort) and
equals the clamped model whenever the sorted scan is cursor-well-formed. -/
lemma processMarkdown2Go_eq (enc : EncFn) (content : Str)
    (h : wfFromB content 0 (sortByStart (findImageReferences2 content)) = true) :
    processMarkdown2Go enc content = some (processMarkdown2 enc content) :=
  spliceGo_eq_clamped enc content _ [] 0 (Nat.zero_le _) h

/-! ### The matcher only moves forward; successive matches are chained -/

lemma tryGreedy_le (k : Nat → Caps → Option (Nat × Caps)) (cp : Caps) (base : Nat) :
    ∀ m r, tryGreedy k cp base m = some r → ∃ t, t ≤ m ∧ k (base + t) cp = some r := by
  intro m
  induction m with
  | zero =>
    intro r h
    simp only [tryGreedy] at h
    exact ⟨0, Nat.le_refl 0, h⟩
  | succ n ihn =>
    intro r h
    simp only [tryGreedy] at h
    cases hk : k (base + n + 1) cp with
    | some v =>
      rw [hk] at h
      simp only [Option.orElse] at h
      refine ⟨n + 1, Nat.le_refl _, ?_⟩
      show k (base + n + 1) cp = some r
      rw [hk]
      exact h
    | none =>
      rw [hk] at h
      simp only [Option.orElse] at h
      obtain ⟨t, ht, hh⟩ := ihn r h
      exact ⟨t, Nat.le_succ_of_le ht, hh⟩

lemma tryLazy_le (k : Nat → Caps → Option (Nat × Caps)) (cp : Caps) :
    ∀ m base r, tryLazy k cp base m = some r → ∃ t, t ≤ m ∧ k (base + t) cp = some r := by
  intro m
  induction m with
  | zero =>
    intro base r h
    simp only [tryLazy] at h
    exact ⟨0, Nat.le_refl 0, h⟩
  | succ n ihn =>
    intro base r h
    simp only [tryLazy] at h
    cases hk : k base cp with
    | some v =>
      rw [hk] at h
      simp only [Option.orElse] at h
      exact ⟨0, Nat.zero_le _, by rw [Nat.add_zero, hk]; exact h⟩
    | none =>
      rw [hk] at h
      simp only [Option.orElse] at h
      obtain ⟨t, ht, hh⟩ := ihn (base + 1) r h
      refine ⟨t + 1, by omega, ?_⟩
      rw [show base + (t + 1) = base + 1 + t from by omega]
      exact hh

lemma reMatch_le : ∀ (re : RE) (s : Str) (i : Nat) (cp : Caps)
    (k : Nat → Caps → Option (Nat × Caps)) (r : Nat × Caps),
    reMatch re s i cp k = some r → ∃ j cp2, i ≤ j ∧ k j cp2 = some r := by
  intro re
  induction re with
  | eps =>
    intro s i cp k r h
    exact ⟨i, cp, Nat.le_refl i, h⟩
  | lit c =>
    intro s i cp k r h
    simp only [reMatch] at h
    cases hd : s.drop i with
    | nil => simp only [hd] at h; exact absurd h (by simp)
    | cons d t =>
      simp only [hd] at h
      by_cases hc : d = c
      · rw [if_pos hc] at h
        exact ⟨i + 1, cp, Nat.le_succ i, h⟩
      · rw [if_neg hc] at h
        exact absurd h (by simp)
  | cls p =>
    intro s i cp k r h
    simp only [reMatch] at h
    cases hd : s.drop i with
    | nil => simp only [hd] at h; exact absurd h (by simp)
    | cons d t =>
      simp only [hd] at h
      by_cases hc : p d = true
      · rw [if_pos hc] at h
        exact ⟨i + 1, cp, Nat.le_succ i, h⟩
      · rw [if_neg hc] at h
        exact absurd h (by simp)
  | seq a b iha ihb =>
    intro s i cp k r h
    simp only [reMatch] at h
    obtain ⟨j1, cp1, hij1, h1⟩ := iha s i cp _ r h
    obtain ⟨j2, cp2, hj12, h2⟩ := ihb s j1 cp1 k r h1
    exact ⟨j2, cp2, Nat.le_trans hij1 hj12, h2⟩
  | alt a b iha ihb =>
    intro s i cp k r h
    simp only [reMatch] at h
    cases ha : reMatch a s i cp k with
    | some v =>
      rw [ha] at h
      simp only [Option.orElse] at h
      rw [← h]
      exact iha s i cp k v ha
    | none =>
      rw [ha] at h
      simp only [Option.orElse] at h
      exact ihb s i cp k r h
  | starCls p g =>
    intro s i cp k r h
    simp only [reMatch] at h
    cases g with
    | true =>
      simp only [if_true] at h
      obtain ⟨t, _, hh⟩ := tryGreedy_le k cp i (runLen p s i) r h
      exact ⟨i + t, cp, Nat.le_add_right i t, hh⟩
    | false =>
      simp only [Bool.false_eq_true, if_false] at h
      obtain ⟨t, _, hh⟩ := tryLazy_le k cp (runLen p s i) i r h
      exact ⟨i + t, cp, Nat.le_add_right i t, hh⟩
  | group n a iha =>
    intro s i cp k r h
    simp only [reMatch] at h
    obtain ⟨j, cp2, hij, h2⟩ := iha s i cp _ r h
    exact ⟨j, (n, i, j) :: cp2, hij, h2⟩

lemma matchAt_le {r : RE} {s : Str} {i j : Nat} {cp : Caps}
    (h : matchAt r s i = some (j, cp)) : i ≤ j := by
  obtain ⟨j2, cp2, hij, hk⟩ := reMatch_le r s i [] _ _ h
  have : j2 = j := by
    have := Option.some.inj hk
    exact congrArg Prod.fst this
  omega

lemma findFromAux_le (r : RE) (s : Str) :
    ∀ fuel i m, findFromAux r s i fuel = some m → i ≤ m.st ∧ m.st ≤ m.en := by
  intro fuel
  induction fuel with
  | zero =>
    intro i m h
    simp only [findFromAux] at h
    cases hm : matchAt r s i with
    | none => simp only [hm] at h; exact absurd h (by simp)
    | some v =>
      obtain ⟨j, cp⟩ := v
      simp only [hm] at h
      have hme : m = ⟨i, j, cp⟩ := (Option.some.inj h).symm
      subst hme
      exact ⟨Nat.le_refl i, matchAt_le hm⟩
  | succ f ihf =>
    intro i m h
    simp only [findFromAux] at h
    cases hm : matchAt r s i with
    | none =>
      simp only [hm] at h
      obtain ⟨h1, h2⟩ := ihf (i + 1) m h
      exact ⟨by omega, h2⟩
    | some v =>
      obtain ⟨j, cp⟩ := v
      simp only [hm] at h
      have hme : m = ⟨i, j, cp⟩ := (Option.some.inj h).symm
      subst hme
      exact ⟨Nat.le_refl i, matchAt_le hm⟩

/-- Spans of a match list chained from position `i`. -/
def mSpansWF (i : Nat) : List MatchData → Prop
  | [] => True
  | m :: ms => i ≤ m.st ∧ m.st ≤ m.en ∧ mSpansWF m.en ms

lemma mSpansWF_anti {i j : Nat} (h : i ≤ j) : ∀ l, mSpansWF j l → mSpansWF i l
  | [], _ => trivial
  | _ :: _, ⟨h1, h2, h3⟩ => ⟨Nat.le_trans h h1, h2, h3⟩

lemma findAllAux_wf (r : RE) (s : Str) : ∀ fuel i, mSpansWF i (findAllAux r s i fuel) := by
  intro fuel
  induction fuel with
  | zero => intro i; simp only [findAllAux]; trivial
  | succ f ihf =>
    intro i
    simp only [findAllAux]
    cases hm : findFrom r s i with
    | none => simp only [hm]; trivial
    | some m =>
      simp only [hm]
      obtain ⟨him, hmm⟩ := findFromAux_le r s (s.length - i) i m hm
      refine ⟨him, hmm, ?_⟩
      have hres : m.en ≤ (if m.st < m.en then m.en else m.en + 1) := by split <;> omega
      exact mSpansWF_anti hres _ (ihf _)

lemma findAll_wf (r : RE) (s : Str) : mSpansWF 0 (findAll r s) :=
  findAllAux_wf r s (s.length + 1) 0

/-- Reference spans chained from position `i`. -/
def refsWF (i : Nat) : List ImageReference → Prop
  | [] => True
  | r :: rs => i ≤ r.StartPos ∧ r.StartPos ≤ r.EndPos ∧ refsWF r.EndPos rs

lemma refsWF_anti {i j : Nat} (h : i ≤ j) : ∀ l, refsWF j l → refsWF i l
  | [], _ => trivial
  | _ :: _, ⟨h1, h2, h3⟩ => ⟨Nat.le_trans h h1, h2, h3⟩

lemma refsWF_ordered : ∀ (l : List ImageReference) (i : Nat),
    refsWF i l → orderedSpansB l = true := by
  intro l
  induction l with
  | nil => intro i _; rfl
  | cons a t ih =>
    intro i h
    obtain ⟨_, h2, h3⟩ := h
    cases t with
    | nil => simp [orderedSpansB, h2]
    | cons b t2 =>
      have hb1 := h3.1
      have hrec := ih a.EndPos h3
      simp [orderedSpansB, h2, hb1, hrec]

lemma filterMap_refsWF (g : MatchData → Option ImageReference)
    (hg : ∀ m r, g m = some r → r.StartPos = m.st ∧ r.EndPos = m.en) :
    ∀ (ms : List MatchData) (i : Nat), mSpansWF i ms → refsWF i (ms.filterMap g) := by
  intro ms
  induction ms with
  | nil => intro i _; trivial
  | cons m ms2 ih =>
    intro i h
    obtain ⟨h1, h2, h3⟩ := h
    rw [List.filterMap_cons]
    cases hgm : g m with
    | none => exact refsWF_anti (Nat.le_trans h1 h2) _ (ih m.en h3)
    | some r =>
      obtain ⟨e1, e2⟩ := hg m r hgm
      refine ⟨?_, ?_, ?_⟩
      · omega
      · omega
      · rw [e2]; exact ih m.en h3

lemma pass5New_refsWF (content : Str) :
    ∀ (ms : List MatchData) (acc : List ImageReference) (i : Nat),
      mSpansWF i ms → refsWF i (pass5New content ms acc) := by
  intro ms
  induction ms with
  | nil => intro acc i _; trivial
  | cons m ms2 ih =>
    intro acc i h
    obtain ⟨h1, h2, h3⟩ := h
    simp only [pass5New]
    split
    · exact refsWF_anti (Nat.le_trans h1 h2) _ (ih _ _ h3)
    · split
      · exact refsWF_anti (Nat.le_trans h1 h2) _ (ih _ _ h3)
      · exact ⟨h1, h2, ih _ _ h3⟩

/-! ### Each scanning pass yields ordered, disjoint spans -/

lemma pass1_ordered (content : Str) : orderedSpansB (pass1 content) = true := by
  apply refsWF_ordered _ 0
  unfold pass1
  refine filterMap_refsWF _ ?_ _ 0 (findAll_wf _ _)
  intro m r h
  dsimp only at h
  by_cases hc : sData.isPrefixOf (grpStr content m 2) = true
  · rw [if_pos hc] at h
    exact absurd h (by simp)
  · rw [if_neg hc] at h
    have hrec := Option.some.inj h
    rw [← hrec]
    exact ⟨rfl, rfl⟩

lemma pass2_ordered (content : Str) : orderedSpansB (pass2 content) = true := by
  apply refsWF_ordered _ 0
  unfold pass2
  refine filterMap_refsWF _ ?_ _ 0 (findAll_wf _ _)
  intro m r h
  dsimp only at h
  by_cases hc1 : sData.isPrefixOf (grpStr content m 2) = true
  · rw [if_pos hc1] at h
    exact absurd h (by simp)
  · rw [if_neg hc1] at h
    by_cases hc2 : containsSub sSpEq (sliceL content m.st m.en) = true
    · rw [if_pos hc2] at h
      exact absurd h (by simp)
    · rw [if_neg hc2] at h
      by_cases hc3 : sBrC.isPrefixOf ((content.drop m.en).dropWhile wsUni) = true
      · rw [if_pos hc3] at h
        exact absurd h (by simp)
      · rw [if_neg hc3] at h
        have hrec := Option.some.inj h
        rw [← hrec]
        exact ⟨rfl, rfl⟩

lemma pass3_ordered (content : Str) : orderedSpansB (pass3 content) = true := by
  apply refsWF_ordered _ 0
  unfold pass3
  refine filterMap_refsWF _ ?_ _ 0 (findAll_wf _ _)
  intro m r h
  dsimp only at h
  by_cases hc : sData.isPrefixOf (grpStr content m 2) = true
  · rw [if_pos hc] at h
    exact absurd h (by simp)
  · rw [if_neg hc] at h
    have hrec := Option.some.inj h
    rw [← hrec]
    exact ⟨rfl, rfl⟩

lemma pass4_ordered (content : Str) : orderedSpansB (pass4 content) = true := by
  apply refsWF_ordered _ 0
  unfold pass4
  refine filterMap_refsWF _ ?_ _ 0 (findAll_wf _ _)
  intro m r h
  dsimp only at h
  by_cases hc : sData.isPrefixOf (grpStr content m 1) = true
  · rw [if_pos hc] at h
    exact absurd h (by simp)
  · rw [if_neg hc] at h
    have hrec := Option.some.inj h
    rw [← hrec]
    exact ⟨rfl, rfl⟩

lemma pass5New_ordered (content : Str) (acc : List ImageReference) :
    orderedSpansB (pass5New content (findAll htmlSimpleRE content) acc) = true :=
  refsWF_ordered _ 0 (pass5New_refsWF content _ acc 0 (findAll_wf _ _))

lemma mdPassV2_ordered (content : Str) : orderedSpansB (mdPassV2 content) = true := by
  apply refsWF_ordered _ 0
  unfold mdPassV2
  refine filterMap_refsWF _ ?_ _ 0 (findAll_wf _ _)
  intro m r h
  dsimp only at h
  by_cases hc : sData.isPrefixOf (grpStr content m 2) = true
  · rw [if_pos hc] at h
    exact absurd h (by simp)
  · rw [if_neg hc] at h
    have hrec := Option.some.inj h
    rw [← hrec]
    exact ⟨rfl, rfl⟩

lemma htmlPassV2_ordered (content : Str) : orderedSpansB (htmlPassV2 content) = true := by
  apply refsWF_ordered _ 0
  unfold htmlPassV2
  refine filterMap_refsWF _ ?_ _ 0 (findAll_wf _ _)
  intro m r h
  dsimp only at h
  by_cases hc : sData.isPrefixOf (grpStr content m 1) = true
  · rw [if_pos hc] at h
    exact absurd h (by simp)
  · rw [if_neg hc] at h
    have hrec := Option.some.inj h
    rw [← hrec]
    exact ⟨rfl, rfl⟩

/-! ### No pass ever registers a `data:` locator -/

lemma pass1_no_data (content : Str) (r : ImageReference) (h : r ∈ pass1 content) :
    sData.isPrefixOf r.ImagePath = false := by
  unfold pass1 at h
  obtain ⟨m, _, hgm⟩ := List.mem_filterMap.mp h
  dsimp only at hgm
  by_cases hc : sData.isPrefixOf (grpStr content m 2) = true
  · rw [if_pos hc] at hgm
    exact absurd hgm (by simp)
  · rw [if_neg hc] at hgm
    have hrec := Option.some.inj hgm
    rw [← hrec]
    simp only [Bool.not_eq_true] at hc
    exact hc

lemma pass2_no_data (content : Str) (r : ImageReference) (h : r ∈ pass2 content) :
    sData.isPrefixOf r.ImagePath = false := by
  unfold pass2 at h
  obtain ⟨m, _, hgm⟩ := List.mem_filterMap.mp h
  dsimp only at hgm
  by_cases hc1 : sData.isPrefixOf (grpStr content m 2) = true
  · rw [if_pos hc1] at hgm
    exact absurd hgm (by simp)
  · rw [if_neg hc1] at hgm
    by_cases hc2 : containsSub sSpEq (sliceL content m.st m.en) = true
    · rw [if_pos hc2] at hgm
      exact absurd hgm (by simp)
    · rw [if_neg hc2] at hgm
      by_cases hc3 : sBrC.isPrefixOf ((content.drop m.en).dropWhile wsUni) = true
      · rw [if_pos hc3] at hgm
        exact absurd hgm (by simp)
      · rw [if_neg hc3] at hgm
        have hrec := Option.some.inj hgm
        rw [← hrec]
        simp only [Bool.not_eq_true] at hc1
        exact hc1

lemma pass3_no_data (content : Str) (r : ImageReference) (h : r ∈ pass3 content) :
    sData.isPrefixOf r.ImagePath = false := by
  unfold pass3 at h
  obtain ⟨m, _, hgm⟩ := List.mem_filterMap.mp h
  dsimp only at hgm
  by_cases hc : sData.isPrefixOf (grpStr content m 2) = true
  · rw [if_pos hc] at hgm
    exact absurd hgm (by simp)
  · rw [if_neg hc] at hgm
    have hrec := Option.some.inj hgm
    rw [← hrec]
    simp only [Bool.not_eq_true] at hc
    exact hc

lemma pass4_no_data (content : Str) (r : ImageReference) (h : r ∈ pass4 content) :
    sData.isPrefixOf r.ImagePath = false := by
  unfold pass4 at h
  obtain ⟨m, _, hgm⟩ := List.mem_filterMap.mp h
  dsimp only at hgm
  by_cases hc : sData.isPrefixOf (grpStr content m 1) = true
  · rw [if_pos hc] at hgm
    exact absurd hgm (by simp)
  · rw [if_neg hc] at hgm
    have hrec := Option.some.inj hgm
    rw [← hrec]
    simp only [Bool.not_eq_true] at hc
    exact hc

lemma pass5New_no_data (content : Str) :
    ∀ (ms : List MatchData) (acc : List ImageReference) (r : ImageReference),
      r ∈ pass5New content ms acc → sData.isPrefixOf r.ImagePath = false := by
  intro ms
  induction ms with
  | nil => intro acc r h; exact absurd h (List.not_mem_nil r)
  | cons m ms2 ih =>
    intro acc r h
    simp only [pass5New] at h
    by_cases hc1 : sData.isPrefixOf (grpStr content m 1) = true
    · rw [if_pos hc1] at h
      exact ih _ r h
    · rw [if_neg hc1] at h
      by_cases hc2 : (acc.any fun x => x.StartPos == m.st && x.EndPos == m.en) = true
      · rw [if_pos hc2] at h
        exact ih _ r h
      · rw [if_neg hc2] at h
        rcases List.mem_cons.mp h with heq | hmem
        · rw [heq]
          simp only [Bool.not_eq_true] at hc1
          exact hc1
        · exact ih _ r hmem

lemma mdPassV2_no_data (content : Str) (r : ImageReference) (h : r ∈ mdPassV2 content) :
    sData.isPrefixOf r.ImagePath = false := by
  unfold mdPassV2 at h
  obtain ⟨m, _, hgm⟩ := List.mem_filterMap.mp h
  dsimp only at hgm
  by_cases hc : sData.isPrefixOf (grpStr content m 2) = true
  · rw [if_pos hc] at hgm
    exact absurd hgm (by simp)
  · rw [if_neg hc] at hgm
    have hrec := Option.some.inj hgm
    rw [← hrec]
    simp only [Bool.not_eq_true] at hc
    exact hc

lemma htmlPassV2_no_data (content : Str) (r : ImageReference) (h : r ∈ htmlPassV2 content) :
    sData.isPrefixOf r.ImagePath = false := by
  unfold htmlPassV2 at h
  obtain ⟨m, _, hgm⟩ := List.mem_filterMap.mp h
  dsimp only at hgm
  by_cases hc : sData.isPrefixOf (grpStr content m 1) = true
  · rw [if_pos hc] at hgm
    exact absurd hgm (by simp)
  · rw [if_neg hc] at hgm
    have hrec := Option.some.inj hgm
    rw [← hrec]
    simp only [Bool.not_eq_true] at hc
    exact hc

/-- Variant 1's scanner never registers a `data:` locator. -/
lemma scan1_no_data (content : Str) (r : ImageReference)
    (h : r ∈ findImageReferences1 content) : sData.isPrefixOf r.ImagePath = false := by
  unfold findImageReferences1 at h
  rcases List.mem_append.mp h with hb | h5
  · rcases List.mem_append.mp hb with hb | h4
    · rcases List.mem_append.mp hb with hb | h3
      · rcases List.mem_append.mp hb with h1 | h2
        · exact pass1_no_data content r h1
        · exact pass2_no_data content r h2
      · exact pass3_no_data content r h3
    · exact pass4_no_data content r h4
  · exact pass5New_no_data content _ _ r h5

/-- Variant 2's scanner never registers a `data:` locator. -/
lemma scan2_no_data (content : Str) (r : ImageReference)
    (h : r ∈ findImageReferences2 content) : sData.isPrefixOf r.ImagePath = false := by
  unfold findImageReferences2 at h
  rcases List.mem_append.mp h with h1 | h2
  · exact mdPassV2_no_data content r h1
  · exact htmlPassV2_no_data content r h2

/-! ### Resize policy lemmas -/

lemma resizeDims1_cap_small {sW sH : Nat} (h : max sW sH ≤ 200) :
    resizeDims1 sW sH 0 0 = (sW, sH, false) := by
  unfold resizeDims1
  rw [if_pos ⟨rfl, rfl⟩, if_neg (by omega : ¬(200 < sW ∨ 200 < sH))]

lemma resizeDims1_cap_large {sW sH : Nat} (h : 200 < max sW sH) :
    resizeDims1 sW sH 0 0 = (200 * sW / max sW sH, 200 * sH / max sW sH, true) ∧
      max (200 * sW / max sW sH) (200 * sH / max sW sH) = 200 := by
  unfold resizeDims1
  rw [if_pos ⟨rfl, rfl⟩, if_pos (by omega : 200 < sW ∨ 200 < sH)]
  by_cases hcmp : sH < sW
  · have hm : max sW sH = sW := Nat.max_eq_left (Nat.le_of_lt hcmp)
    have hsw : 0 < sW := by omega
    have hcan : 200 * sW / sW = 200 := Nat.mul_div_cancel _ hsw
    have hle : 200 * sH / sW ≤ 200 := by
      calc 200 * sH / sW ≤ 200 * sW / sW :=
            Nat.div_le_div_right (Nat.mul_le_mul_left 200 (Nat.le_of_lt hcmp))
        _ = 200 := hcan
    rw [if_pos hcmp, hm, hcan]
    exact ⟨rfl, Nat.max_eq_left hle⟩
  · have hws : sW ≤ sH := Nat.le_of_not_lt hcmp
    have hm : max sW sH = sH := Nat.max_eq_right hws
    have hsh : 0 < sH := by omega
    have hcan : 200 * sH / sH = 200 := Nat.mul_div_cancel _ hsh
    have hle : 200 * sW / sH ≤ 200 := by
      calc 200 * sW / sH ≤ 200 * sH / sH :=
            Nat.div_le_div_right (Nat.mul_le_mul_left 200 hws)
        _ = 200 := hcan
    rw [if_neg hcmp, hm, hcan]
    exact ⟨rfl, Nat.max_eq_right hle⟩

lemma resizeDims1_wonly {sW sH w : Nat} (hw : 0 < w) :
    resizeDims1 sW sH w 0 = (w, w * sH / sW, true) := by
  unfold resizeDims1
  rw [if_neg (by omega : ¬(w = 0 ∧ (0 : Nat) = 0)), if_pos ⟨hw, rfl⟩]

lemma resizeDims1_honly {sW sH h : Nat} (hh : 0 < h) :
    resizeDims1 sW sH 0 h = (h * sW / sH, h, true) := by
  unfold resizeDims1
  rw [if_neg (by omega : ¬((0 : Nat) = 0 ∧ h = 0)),
    if_neg (by omega : ¬((0 : Nat) < 0 ∧ h = 0)), if_pos ⟨hh, rfl⟩]

/-- Variant 2's resize: the original image is returned untouched exactly
when the computed target equals the source dimensions. -/
lemma resizeDims2_skip_iff (sW sH w h : Nat) :
    ((resizeDims2 sW sH w h).2.2 = false ↔
      (resizeDims2 sW sH w h).1 = sW ∧ (resizeDims2 sW sH w h).2.1 = sH) := by
  unfold resizeDims2 resizeStep2
  by_cases h00 : w = 0 ∧ h = 0
  · rw [if_pos h00]
    by_cases hcap : 400 < sW
    · rw [if_pos hcap]
      dsimp only
      rw [if_pos (by omega : (0 : Nat) < 400 ∧ (0 : Nat) = 0),
        if_neg (by omega : ¬((400 : Nat) = sW ∧ 400 * sH / sW = sH))]
      exact iff_of_false (by simp) (by omega)
    · rw [if_neg hcap]
      simp
  · rw [if_neg h00]
    dsimp only
    by_cases heq :
        (if 0 < w ∧ h = 0 then (w, w * sH / sW)
          else if 0 < h ∧ w = 0 then (h * sW / sH, h) else (w, h)).1 = sW ∧
        (if 0 < w ∧ h = 0 then (w, w * sH / sW)
          else if 0 < h ∧ w = 0 then (h * sW / sH, h) else (w, h)).2 = sH
    · rw [if_pos heq]
      simp
    · rw [if_neg heq]
      exact iff_of_false (by simp) heq

/-! ### Concrete documents and oracles used by the claims -/

def docWOnly : Str := "![test image](test.jpg)\x7b: width=100\x7d".data

def docHOnly : Str := "![test image](test.jpg)\x7b: height=100\x7d".data

def docMixed : Str := "<img src=\x22a\x22 alt=\x22t\x22> ![b](c.jpg)".data

def docOverlap : Str := "<img src=\x22a.jpg\x22 alt=\x22![x](y.jpg)\x22>".data

def docPartial : Str := "![a](test.jpg) ![b](missing.jpg)".data

def docSingle : Str := "![a](t.jpg)".data

def sTestJpg : Str := "test.jpg".data

def sMissingJpg : Str := "missing.jpg".data

def sPayload : Str := "QUJD".data

def sJpegMime : Str := "image/jpeg".data

def sMarker : Str := "data:image/jpeg;base64,".data

def sBMissing : Str := "![b](missing.jpg)".data

/-- Oracle for the partial-failure scenario: `test.jpg` materializes as a
JPEG payload, `missing.jpg` fails (file absent). -/
def encPartial : EncFn := fun p _ _ => if p = sTestJpg then some (sPayload, sJpegMime) else none

/-- Oracle for the mixed HTML/markdown document: both images materialize. -/
def encMixed : EncFn := fun p _ _ =>
  if p = "a".data then some ("AA".data, sJpegMime)
  else if p = "c.jpg".data then some ("BB".data, sJpegMime) else none

def encSingle : EncFn := fun p _ _ => if p = "t.jpg".data then some (sPayload, sJpegMime) else none

def expectedPartial : Str := "![a](data:image/jpeg;base64,QUJD) ![b](missing.jpg)".data

/-- The scanned reference for `missing.jpg` inside `docPartial`. -/
def missingRef : ImageReference :=
  { FullMatch := sBMissing, AltText := "b".data, ImagePath := sMissingJpg,
    StartPos := 15, EndPos := 32, Width := 0, Height := 0, IsHTML := false }

/-- The markdown reference the scanner registers inside the `alt` attribute
of `docOverlap` (overlapping the HTML tag's own span). -/
def overlapRef : ImageReference :=
  { FullMatch := "![x](y.jpg)".data, AltText := "x".data, ImagePath := "y.jpg".data,
    StartPos := 22, EndPos := 33, Width := 0, Height := 0, IsHTML := false }

/-- Oracle on which every materialization fails. -/
def encNone : EncFn := fun _ _ _ => none

/-- The scanned reference inside `docSingle`. -/
def singleRef : ImageReference :=
  { FullMatch := docSingle, AltText := "a".data, ImagePath := "t.jpg".data,
    StartPos := 0, EndPos := 11, Width := 0, Height := 0, IsHTML := false }

def svgDoc : Str := "<svg width=\x22100\x22 height=\x22100\x22><circle r=\x2240\x22 /></svg>".data

def svgDocW200 : Str := "<svg width=\x22200\x22 height=\x22100\x22><circle r=\x2240\x22 /></svg>".data

def svgNoAttrs : Str := "<svg viewBox=\x220 0 4 4\x22/>".data

def tagAltFirst : Str := "<img alt=\x22t\x22 src=\x22x.jpg\x22>".data

def tagSrcFirst : Str := "<img src=\x22x.jpg\x22 alt=\x22t\x22>".data

def tagWFirst : Str := "<img width=\x2230\x22 src=\x22x.jpg\x22 alt=\x22t\x22 height=\x2240\x22>".data

def tagHBeforeW : Str := "<img src=\x22x.jpg\x22 alt=\x22t\x22 height=\x2240\x22 width=\x2230\x22>".data

def refFacts (r : ImageReference) : Str × Str × Nat × Nat × Bool :=
  (r.ImagePath, r.AltText, r.Width, r.Height, r.IsHTML)

/-! ### The claims -/

/-- C1, counterexample: the list returned by `findImageReferences` is NOT
always sorted by start (markdown-grammar matches are appended before
HTML-grammar matches, so an HTML tag preceding a markdown image yields a
descending list, in both variants), and spans may overlap (a markdown image
inside an HTML `alt` attribute is registered inside the tag's span). -/
theorem c1_counterexample :
    sortedByStartB (findImageReferences1 docMixed) = false ∧
    sortedByStartB (findImageReferences2 docMixed) = false ∧
    pairwiseDisjointB (findImageReferences1 docOverlap) = false ∧
    pairwiseDisjointB (findImageReferences2 docOverlap) = false := by
  decide

/-- C1, amended: within each individual scanning pass the registered
references do have pairwise disjoint spans sorted ascending; the scanner's
result is the concatenation of the passes (markdown grammars first, then
HTML), which is what loses global order and disjointness. -/
theorem c1_theorem : ∀ content : Str,
    orderedSpansB (pass1 content) = true ∧
    orderedSpansB (pass2 content) = true ∧
    orderedSpansB (pass3 content) = true ∧
    orderedSpansB (pass4 content) = true ∧
    orderedSpansB (pass5New content (findAll htmlSimpleRE content)
      (pass1 content ++ pass2 content ++ pass3 content ++ pass4 content)) = true ∧
    orderedSpansB (mdPassV2 content) = true ∧
    orderedSpansB (htmlPassV2 content) = true ∧
    findImageReferences1 content =
      pass1 content ++ pass2 content ++ pass3 content ++ pass4 content ++
        pass5New content (findAll htmlSimpleRE content)
          (pass1 content ++ pass2 content ++ pass3 content ++ pass4 content) ∧
    findImageReferences2 content = mdPassV2 content ++ htmlPassV2 content :=
  fun content =>
    ⟨pass1_ordered content, pass2_ordered content, pass3_ordered content,
      pass4_ordered content, pass5New_ordered content _, mdPassV2_ordered content,
      htmlPassV2_ordered content, rfl, rfl⟩

/-- C2, counterexample: on a document where an HTML reference precedes a
markdown reference, variant 1's `processMarkdown` (offset-adjusted splicing
into a mutated string, references processed in scanner order) does not
substitute at the original spans: its output differs from the exact-span
forward-cursor rewrite of its own scanned reference list. -/
theorem c2_counterexample :
    processMarkdown1 encMixed docMixed ≠
      spliceExactAux encMixed docMixed (sortByStart (findImageReferences1 docMixed)) [] 0 ∧
    processMarkdown1 encMixed docMixed ≠ processMarkdown2 encMixed docMixed := by
  decide

/-- C2, amended: variant 2's splicer is the forward-cursor rewrite by
construction; variant 1's offset-adjusted splicing over the mutated string
coincides with the exact-span forward-cursor rewrite precisely on
cursor-well-formed reference lists (spans chained left-to-right, in bounds,
with `FullMatch` equal to the span's text) — i.e. whenever the scanned list
is sorted and non-overlapping, and not otherwise. -/
theorem c2_theorem (enc : EncFn) (content : Str) (refs : List ImageReference)
    (h : wfFromB content 0 refs = true) :
    splice1Aux enc refs content 0 = spliceExactAux enc content refs [] 0 :=
  splice1_base enc content refs h

/-- C2, witness: the partial-failure document's scanned list is
cursor-well-formed and there the two splicers agree. -/
theorem c2_witness :
    wfFromB docPartial 0 (findImageReferences1 docPartial) = true ∧
    splice1Aux encPartial (findImageReferences1 docPartial) docPartial 0 =
      spliceExactAux encPartial docPartial (findImageReferences1 docPartial) [] 0 :=
  ⟨by decide, c2_theorem encPartial docPartial _ (by decide)⟩

/-- C3, counterexample: not every document with a failing reference yields
rewritten text.  On `<img src="a.jpg" alt="![x](y.jpg)">` the scanner
registers the markdown reference inside the `alt` attribute overlapping the
tag's span; after sorting by start, variant 2's `processMarkdown` hits the
out-of-range slice `content[35:22]` and the program aborts with a runtime
panic (`none` in the panic-faithful model) even though each per-reference
materialization failure was handled. -/
theorem c3_counterexample :
    overlapRef ∈ sortByStart (findImageReferences2 docOverlap) ∧
    encNone overlapRef.ImagePath overlapRef.Width overlapRef.Height = none ∧
    processMarkdown2Go encNone docOverlap = none := by
  decide

/-- C3, amended: on every document whose sorted scanned reference list is
cursor-well-formed (spans chained left-to-right and in bounds — every
overlap-free scan, which C1's per-pass theorem shows covers all single-
grammar documents), a reference whose materialization fails contributes its
original matched text verbatim to the output of variant 2's
`processMarkdown`, which then returns rewritten text rather than aborting;
in particular on `![a](test.jpg) ![b](missing.jpg)` with `test.jpg`
materializing and `missing.jpg` failing, both variants produce output with
exactly one `data:image/jpeg;base64,` occurrence and the literal
`![b](missing.jpg)` unchanged. -/
theorem c3_theorem :
    (∀ (enc : EncFn) (content : Str) (r : ImageReference),
      wfFromB content 0 (sortByStart (findImageReferences2 content)) = true →
      r ∈ sortByStart (findImageReferences2 content) →
      enc r.ImagePath r.Width r.Height = none →
      ∃ a b, processMarkdown2Go enc content = some (a ++ (r.FullMatch ++ b))) ∧
    processMarkdown2Go encPartial docPartial = some expectedPartial ∧
    processMarkdown1 encPartial docPartial = expectedPartial ∧
    countSub expectedPartial sMarker = 1 ∧
    containsSub sBMissing expectedPartial = true ∧
    encPartial sMissingJpg 0 0 = none :=
  ⟨fun enc content r hwf hr henc => by
      obtain ⟨a, b, hab⟩ :=
        failedRef_infix enc content (sortByStart (findImageReferences2 content)) [] 0 r hr henc
      exact ⟨a, b, by rw [processMarkdown2Go_eq enc content hwf]; exact congrArg some hab⟩,
    by decide, by decide, by decide, by decide, by decide⟩

/-- C3, witness: the failing `missing.jpg` reference of the partial-failure
document, whose sorted scan is cursor-well-formed, instantiated in the
universal part. -/
theorem c3_witness :
    wfFromB docPartial 0 (sortByStart (findImageReferences2 docPartial)) = true ∧
    missingRef ∈ sortByStart (findImageReferences2 docPartial) ∧
    encPartial missingRef.ImagePath missingRef.Width missingRef.Height = none ∧
    (∃ a b, processMarkdown2Go encPartial docPartial =
      some (a ++ (missingRef.FullMatch ++ b))) :=
  ⟨by decide, by decide, by decide,
    c3_theorem.1 encPartial docPartial missingRef (by decide) (by decide) (by decide)⟩

/-- C4: neither scanner ever registers a reference whose locator starts with
`data:`; consequently re-running the pipeline on its own fully-embedded
output scans zero references and returns the output unchanged (concrete
instance for both variants). -/
theorem c4_theorem :
    (∀ (content : Str) (r : ImageReference),
      r ∈ findImageReferences1 content → sData.isPrefixOf r.ImagePath = false) ∧
    (∀ (content : Str) (r : ImageReference),
      r ∈ findImageReferences2 content → sData.isPrefixOf r.ImagePath = false) ∧
    findImageReferences1 (processMarkdown1 encSingle docSingle) = [] ∧
    findImageReferences2 (processMarkdown2 encSingle docSingle) = [] ∧
    processMarkdown1 encSingle (processMarkdown1 encSingle docSingle) =
      processMarkdown1 encSingle docSingle ∧
    processMarkdown2 encSingle (processMarkdown2 encSingle docSingle) =
      processMarkdown2 encSingle docSingle :=
  ⟨scan1_no_data, scan2_no_data, by decide, by decide, by decide, by decide⟩

/-- C4, witness: the scanned reference of `![a](t.jpg)` instantiated in the
universal part. -/
theorem c4_witness :
    singleRef ∈ findImageReferences1 docSingle ∧
    sData.isPrefixOf singleRef.ImagePath = false :=
  ⟨by decide, c4_theorem.1 docSingle singleRef (by decide)⟩

/-- C5: with no requested dimensions, variant 1's `resizeImage` compares the
larger source dimension with the fixed threshold 200: at or below it no
resample happens; above it both dimensions are scaled proportionally
(truncating) so that the larger one becomes exactly 200.  In particular
`resize(800,400,0,0)` yields 200×100 (and the test-file variant, whose cap
is width-only at 400, yields 400×200 on the same instance). -/
theorem c5_theorem :
    (∀ sW sH : Nat,
      (max sW sH ≤ 200 → resizeDims1 sW sH 0 0 = (sW, sH, false)) ∧
      (200 < max sW sH →
        resizeDims1 sW sH 0 0 =
          (200 * sW / max sW sH, 200 * sH / max sW sH, true) ∧
        max (200 * sW / max sW sH) (200 * sH / max sW sH) = 200)) ∧
    resizeDims1 800 400 0 0 = (200, 100, true) ∧
    resizeDims2 800 400 0 0 = (400, 200, true) :=
  ⟨fun _ _ => ⟨fun h => resizeDims1_cap_small h, fun h => resizeDims1_cap_large h⟩,
    by decide, by decide⟩

/-- C5, witness: the 800×400 instance of the default-cap law. -/
theorem c5_witness :
    200 < max 800 400 ∧
    resizeDims1 800 400 0 0 = (200 * 800 / max 800 400, 200 * 400 / max 800 400, true) :=
  ⟨by decide, ((c5_theorem.1 800 400).2 (by decide)).1⟩

/-- C6 (code bug in variant 1): for a size-qualified markdown reference with
only a width (`![test image](test.jpg){: width=100}`), `src/main.go`'s
scanner registers NOTHING (its qualified pass demands both attributes and
its bare pass suppresses any match followed by `{:`), while the test-file
variant registers exactly one reference covering the whole span with the
present attribute captured and the absent one parsed as 0 — which is what
the claim, the repository's tests and the README require. -/
theorem c6_theorem :
    findImageReferences1 docWOnly = [] ∧
    findImageReferences2 docWOnly =
      [{ FullMatch := docWOnly, AltText := "test image".data, ImagePath := sTestJpg,
         StartPos := 0, EndPos := 36, Width := 100, Height := 0, IsHTML := false }] ∧
    findImageReferences2 docHOnly =
      [{ FullMatch := docHOnly, AltText := "test image".data, ImagePath := sTestJpg,
         StartPos := 0, EndPos := 37, Width := 0, Height := 100, IsHTML := false }] := by
  decide

/-- C7 (code bug in variant 1): `src/main.go`'s raster branch applies the
resize policy only when BOTH requested dimensions are positive, so a
width-only request (100 on a 200×100 source) performs no resampling even
though the policy computes a different target (100×50); the test-file
variant applies the policy unconditionally and skips resampling exactly
when the computed target equals the source. -/
theorem c7_theorem :
    rasterResize1 200 100 100 0 = (200, 100, false) ∧
    resizeDims2 200 100 100 0 = (100, 50, true) ∧
    (∀ sW sH w h : Nat, 0 < sW → 0 < sH →
      ((resizeDims2 sW sH w h).2.2 = false ↔
        (resizeDims2 sW sH w h).1 = sW ∧ (resizeDims2 sW sH w h).2.1 = sH)) :=
  ⟨by decide, by decide, fun sW sH w h _ _ => resizeDims2_skip_iff sW sH w h⟩

/-- C7, witness: the skip-iff law instantiated at the 200×100 source with a
width-only request. -/
theorem c7_witness :
    0 < 200 ∧ 0 < 100 ∧
    ((resizeDims2 200 100 100 0).2.2 = false ↔
      (resizeDims2 200 100 100 0).1 = 200 ∧ (resizeDims2 200 100 100 0).2.1 = 100) :=
  ⟨by decide, by decide, c7_theorem.2.2 200 100 100 0 (by decide) (by decide)⟩

/-- C8 (code bug in variant 1): `src/main.go`'s SVG handler encodes the
markup verbatim and never receives the requested dimensions, so a requested
resize is silently ignored; the test-file variant rewrites exactly the
existing `width="…"`/`height="…"` attributes to the requested values
(leaving an unrequested dimension untouched, inserting nothing when the
attribute is absent, passing the markup through when both requests are 0)
and always reports `image/svg+xml`. -/
theorem c8_theorem :
    handleSVGImage1 svgDoc = (svgDoc, sSvgMime) ∧
    svgBranch2 svgDoc 200 0 = (svgDocW200, sSvgMime) ∧
    svgBranch2 svgDoc 0 0 = (svgDoc, sSvgMime) ∧
    updateSVGDimensions svgNoAttrs 200 0 = svgNoAttrs ∧
    svgBranch2 svgNoAttrs 300 0 = (svgNoAttrs, sSvgMime) := by
  decide

/-- C9: with exactly one requested dimension, variant 1's `resizeImage`
completes the other by truncating aspect-ratio preservation
(`other = req * sourceOther / sourceReq`); `resize(200,100,50,0) = (50,25)`
in both variants. -/
theorem c9_theorem :
    (∀ sW sH w : Nat, 0 < w → resizeDims1 sW sH w 0 = (w, w * sH / sW, true)) ∧
    (∀ sW sH h : Nat, 0 < h → resizeDims1 sW sH 0 h = (h * sW / sH, h, true)) ∧
    resizeDims1 200 100 50 0 = (50, 25, true) ∧
    resizeDims2 200 100 50 0 = (50, 25, true) :=
  ⟨fun _ _ _ hw => resizeDims1_wonly hw, fun _ _ _ hh => resizeDims1_honly hh,
    by decide, by decide⟩

/-- C9, witness: the width-only aspect-ratio law at the 200×100 source. -/
theorem c9_witness :
    0 < 50 ∧ resizeDims1 200 100 50 0 = (50, 50 * 100 / 200, true) :=
  ⟨by decide, c9_theorem.1 200 100 50 (by decide)⟩

/-- C10, counterexample: an HTML `img` with `alt` before `src` is not
registered at all by either scanner (both regexes demand `src` textually
before `alt`), while the same attributes in `src`-first order register one
reference; and variant 1 extracts different size values when `height`
precedes `width`. -/
theorem c10_counterexample :
    findImageReferences1 tagAltFirst = [] ∧
    findImageReferences2 tagAltFirst = [] ∧
    (findImageReferences2 tagSrcFirst).length = 1 ∧
    (findImageReferences1 tagHBeforeW).map (fun r => (r.Width, r.Height)) = [(0, 0)] := by
  decide

/-- C10, amended: an HTML `img` element is registered only when `src`
appears textually before `alt`; given that order, the test-file scanner
extracts `width`/`height` order-independently from anywhere in the tag
(before `src`, after `alt`, in either mutual order), with identical
locator, alt text and size values; variant 1's sized pass additionally
demands the exact order `src`,`alt`,`width`,`height` and otherwise falls
back to its no-size pass, losing the size attributes. -/
theorem c10_theorem :
    (findImageReferences2 tagSrcFirst).map refFacts =
      [("x.jpg".data, "t".data, 0, 0, true)] ∧
    (findImageReferences2 tagWFirst).map refFacts =
      [("x.jpg".data, "t".data, 30, 40, true)] ∧
    (findImageReferences2 tagHBeforeW).map refFacts =
      [("x.jpg".data, "t".data, 30, 40, true)] ∧
    findImageReferences2 tagAltFirst = [] ∧
    findImageReferences1 tagAltFirst = [] ∧
    (findImageReferences1 tagHBeforeW).map refFacts =
      [("x.jpg".data, "t".data, 0, 0, true)] :=
  ⟨by decide, by decide, by decide, by decide, by decide, by decide⟩

end MDImages


